import Mathlib

/-!
Verification of the position-plan calculator and portfolio ledger of
`src/app.py` (五行·天机 V21).

The Python module is a Streamlit application.  Its deterministic core is
shallowly embedded here:

* the strategy configuration dictionary `STRATEGY`;
* the board classifier `get_board_type`;
* the plan calculator `calculate_plan` (which in the source returns a pair
  `(plan_dict_or_None, error_string_or_None)`);
* the session-state ledger (`cash`, `total_assets`, `active_trades`,
  `history_trades`) together with the two button handlers that mutate it:
  the confirm-execute handler (`open_position`) and the settle handler
  (`close_position`); each handler is embedded as a function from ledger
  state to `(new_state, optional_error)`, mirroring the fact that on an
  error path the Streamlit handler leaves the session state untouched;
* the win-rate computation of the dashboard (`win_rate`);
* the lazy session initializer `init_state`, together with the list of
  names defined at module level (needed to model Python name resolution for
  the bare identifier `GOOGLE_API_KEY` read on line 56).

Monetary quantities and prices are modelled as rationals (the Python code
uses floats for what are conceptually exact decimal quantities), share
counts as integers (Python `int(... // 100 * 100)` is an integer floor at
lot granularity), and calendar dates as integers counting days, with the
current date passed explicitly where the source calls `datetime.now()`.
-/

namespace Tianji

/-- The strategy configuration record, mirroring the `STRATEGY` dictionary. -/
structure Strategy where
  position_ratio : ℚ
  batch_split : ℚ
  add_buy_drop : ℚ
  stop_loss_from_avg : ℚ
  tp_main_board : ℚ
  tp_tech_board : ℚ
  trailing_drop : ℚ
  max_days : ℤ
deriving DecidableEq

/-- The module-level `STRATEGY` constant of `src/app.py` (lines 23-32). -/
def STRATEGY : Strategy :=
  { position_ratio := 0.16
    batch_split := 0.5
    add_buy_drop := 0.07
    stop_loss_from_avg := 0.07
    tp_main_board := 0.05
    tp_tech_board := 0.07
    trailing_drop := 0.08
    max_days := 20 }

/-- Instrument class: the source uses the strings `'tech'` and `'main'`. -/
inductive Board where
  | tech
  | main
deriving DecidableEq

/-- Python `str.startswith` for a single pattern, on the character list of
the string (structural recursion so that concrete instances evaluate). -/
def starts_with : List Char → List Char → Bool
  | _, [] => true
  | [], _ :: _ => false
  | c :: cs, p :: ps => c = p && starts_with cs ps

/-- Board classifier `get_board_type` (lines 88-92): `code.startswith(('688', '300', '4', '8'))`
classifies as tech-board, everything else as main-board. -/
def get_board_type (code : String) : Board :=
  if starts_with code.data "688".data || starts_with code.data "300".data ||
      starts_with code.data "4".data || starts_with code.data "8".data then
    Board.tech
  else
    Board.main

/-- The plan dictionary produced by `calculate_plan` (lines 124-135). -/
structure Plan where
  code : String
  name : String
  board : Board
  buy_price : ℚ
  step1_shares : ℤ
  step1_money : ℚ
  step2_price : ℚ
  step2_shares : ℤ
  avg_price : ℚ
  tp1_price : ℚ
  tp_pct : ℚ
  post_add_tp1 : ℚ
  stop_price : ℚ
  deadline : ℤ
  date : ℤ
deriving DecidableEq

/-- The error string returned by `calculate_plan` when capital cannot buy
one minimal lot (line 104). -/
def insufficient_lot_msg : String := "资金不足买入一手"

/-- Lot-floored tranche-1 share count of `calculate_plan` line 102:
`int(batch_money / buy_price // 100 * 100)` with
`batch_money = total_capital * position_ratio * batch_split`. -/
def step1_shares_calc (total_capital buy_price : ℚ) : ℤ :=
  ⌊total_capital * STRATEGY.position_ratio * STRATEGY.batch_split / buy_price / 100⌋ * 100

/-- Plan calculator `calculate_plan` (lines 94-135).  The source returns the pair
`(plan_or_None, error_or_None)`; `today` stands for `datetime.now()`. -/
def calculate_plan (today : ℤ) (total_capital buy_price : ℚ) (code name : String) :
    Option Plan × Option String :=
  let board := get_board_type code
  let single_limit := total_capital * STRATEGY.position_ratio
  let batch_money := single_limit * STRATEGY.batch_split
  let step1_shares : ℤ := ⌊batch_money / buy_price / 100⌋ * 100
  if step1_shares = 0 then
    (none, some insufficient_lot_msg)
  else
    let step1_cost := (step1_shares : ℚ) * buy_price
    let add_buy_price := buy_price * (1 - STRATEGY.add_buy_drop)
    let step2_shares : ℤ := ⌊batch_money / add_buy_price / 100⌋ * 100
    let total_shares := step1_shares + step2_shares
    let avg_price := (step1_cost + (step2_shares : ℚ) * add_buy_price) / ((total_shares : ℚ))
    let tp_pct := if board = Board.tech then STRATEGY.tp_tech_board else STRATEGY.tp_main_board
    let tp1_price := buy_price * (1 + tp_pct)
    let post_add_tp1 := avg_price * (1 + tp_pct)
    let stop_price := avg_price * (1 - STRATEGY.stop_loss_from_avg)
    let deadline := today + 28
    (some { code := code
            name := name
            board := board
            buy_price := buy_price
            step1_shares := step1_shares
            step1_money := step1_cost
            step2_price := add_buy_price
            step2_shares := step2_shares
            avg_price := avg_price
            tp1_price := tp1_price
            tp_pct := tp_pct
            post_add_tp1 := post_add_tp1
            stop_price := stop_price
            deadline := deadline
            date := today }, none)

/-- An open position: the plan dictionary after the confirm-execute handler
added `reason_type`, `reason_detail` and `cost` (lines 348-350). -/
structure Position extends Plan where
  reason_type : String
  reason_detail : String
  cost : ℚ
deriving DecidableEq

/-- A closed position: the position dictionary after the settle handler
added `profit` and `close_date` (lines 387-388). -/
structure ClosedPosition extends Position where
  profit : ℚ
  close_date : ℤ
deriving DecidableEq

/-- The ledger portion of the Streamlit session state. -/
structure LedgerState where
  total_assets : ℚ
  cash : ℚ
  active_trades : List Position
  history_trades : List ClosedPosition
deriving DecidableEq

/-- The errors the two ledger handlers can report (`st.error("现金不足！")`,
and the spec-level stale-index failure of the settle handler). -/
inductive LedgerError where
  | insufficientCash
  | positionNotFound
deriving DecidableEq

/-- The initialized ledger: cash and total-assets baseline equal to the
starting cash, both position lists empty.  `init_state` and the reset
button of the source use `startingCash = 1000000`. -/
def init_ledger (startingCash : ℚ) : LedgerState :=
  { total_assets := startingCash
    cash := startingCash
    active_trades := []
    history_trades := [] }

/-- Helper `calculate_market_value` (lines 212-214): sum of `step1_money` over the
active trades (cost basis stands in for market value). -/
def calculate_market_value (s : LedgerState) : ℚ :=
  (s.active_trades.map fun t => t.step1_money).sum

/-- The position record built by the confirm-execute handler: the plan plus
`reason_type`, `reason_detail` and `cost = step1_money` (lines 348-350). -/
def mk_position (plan : Plan) (logic_type reason_detail : String) : Position :=
  { toPlan := plan
    reason_type := logic_type
    reason_detail := reason_detail
    cost := plan.step1_money }

/-- The confirm-execute button handler (lines 342-353).  If
`step1_money > cash` it reports `现金不足` and leaves the session state
unchanged; otherwise it debits cash by `step1_money` and prepends the new
position (`insert(0, ...)`) to `active_trades`. -/
def open_position (plan : Plan) (logic_type reason_detail : String) (s : LedgerState) :
    LedgerState × Option LedgerError :=
  if plan.step1_money > s.cash then
    (s, some LedgerError.insufficientCash)
  else
    ({ s with
        cash := s.cash - plan.step1_money
        active_trades := mk_position plan logic_type reason_detail :: s.active_trades },
      none)

/-- The settle button handler (lines 385-397) for the trade at index `i`,
with caller-supplied profit `close_profit` and current date `today`.  On a
valid index it archives the trade with `profit` and `close_date`, credits
cash by `cost + close_profit`, recomputes `total_assets` as
`cash + calculate_market_value() - trade.cost` (market value is read before
the trade is removed), prepends the archived trade to `history_trades`, and
pops index `i` from `active_trades`.  A stale index is the
`PositionNotFound` failure and leaves the state unchanged. -/
def close_position (today : ℤ) (i : ℕ) (close_profit : ℚ) (s : LedgerState) :
    LedgerState × Option LedgerError :=
  if h : i < s.active_trades.length then
    let trade := s.active_trades.get ⟨i, h⟩
    let closed : ClosedPosition :=
      { toPosition := trade, profit := close_profit, close_date := today }
    let new_cash := s.cash + (trade.cost + close_profit)
    let new_total := new_cash + calculate_market_value s - trade.cost
    ({ total_assets := new_total
       cash := new_cash
       active_trades := s.active_trades.eraseIdx i
       history_trades := closed :: s.history_trades }, none)
  else
    (s, some LedgerError.positionNotFound)

/-- A ledger operation: a successful-or-failed attempt to open a plan or to
settle the trade at an index. -/
inductive Op where
  | openPos (plan : Plan) (logic_type reason_detail : String)
  | closePos (i : ℕ) (profit : ℚ)
deriving DecidableEq

/-- Execute one ledger operation. -/
def exec_op (today : ℤ) (op : Op) (s : LedgerState) : LedgerState × Option LedgerError :=
  match op with
  | Op.openPos plan lt rd => open_position plan lt rd s
  | Op.closePos i profit => close_position today i profit s

/-- Run a sequence of ledger operations, stopping at the first failure. -/
def run_ops (today : ℤ) : List Op → LedgerState → LedgerState × Option LedgerError
  | [], s => (s, none)
  | op :: ops, s =>
      match exec_op today op s with
      | (s2, none) => run_ops today ops s2
      | (s2, some e) => (s2, some e)

/-- The conserved ledger quantity: cash plus the committed cash (`cost`)
of every open position. -/
def wealth (s : LedgerState) : ℚ :=
  s.cash + (s.active_trades.map fun t => t.cost).sum

/-- The total of the caller-supplied realized profit/loss amounts injected
by the close operations of a sequence. -/
def injected : List Op → ℚ
  | [] => 0
  | Op.openPos _ _ _ :: ops => injected ops
  | Op.closePos _ profit :: ops => profit + injected ops

/-- The dashboard win-rate computation (lines 249-251):
`wins / total * 100` when there is history, else `0`. -/
def win_rate (history : List ClosedPosition) : ℚ :=
  let wins := (history.filter fun t => 0 < t.profit).length
  let total_h := history.length
  if 0 < total_h then (wins : ℚ) / (total_h : ℚ) * 100 else 0

/-- The names defined at module level in `src/app.py` at the moment
`init_state()` is invoked (line 180): the eight imported names, the
`api_key` binding of the try block (line 14), the two configuration
dictionaries, and the five function definitions.  The bare name
`GOOGLE_API_KEY` read on line 56 is not among them. -/
def module_globals : List String :=
  ["st", "genai", "pd", "requests", "json", "datetime", "timedelta", "re",
   "api_key", "STRATEGY", "REASONS",
   "init_state", "get_stock_quote", "get_board_type", "calculate_plan", "call_gemini"]

/-- An error raised by straight-line Python execution; here only the
`NameError` from resolving an undefined global name. -/
inductive PyError where
  | nameError (name : String)
deriving DecidableEq

/-- The tracked session-state keys of `init_state` (lines 45-56), each
`none` when the key is absent from `st.session_state`. -/
structure SessionState where
  total_assets : Option ℚ
  cash : Option ℚ
  active_trades : Option (List Position)
  history_trades : Option (List ClosedPosition)
  api_key : Option String
deriving DecidableEq

/-- A session state containing none of the tracked keys. -/
def fresh_session : SessionState :=
  { total_assets := none
    cash := none
    active_trades := none
    history_trades := none
    api_key := none }

/-- Lazy session initializer `init_state` (lines 45-56).  Each missing key is given its default;
the `api_key` branch assigns the value of the bare global name
`GOOGLE_API_KEY`, which raises `NameError` unless that name is defined at
module level.  (Were the name defined, its string value would be assigned;
no such definition exists in the source, so that branch of the model is
unreachable and uses a placeholder value.) -/
def init_state (s : SessionState) : Except PyError SessionState :=
  let s1 := if s.total_assets = none then { s with total_assets := some 1000000 } else s
  let s2 := if s1.cash = none then { s1 with cash := some 1000000 } else s1
  let s3 := if s2.active_trades = none then { s2 with active_trades := some [] } else s2
  let s4 := if s3.history_trades = none then { s3 with history_trades := some [] } else s3
  if s4.api_key = none then
    if "GOOGLE_API_KEY" ∈ module_globals then
      Except.ok { s4 with api_key := some "" }
    else
      Except.error (PyError.nameError "GOOGLE_API_KEY")
  else
    Except.ok s4

/-! ### The success branch of the calculator, as an explicit record

`plan_of` restates the plan dictionary built in the `else` branch of
`calculate_plan`; `calculate_plan_eq` proves (definitionally) that
`calculate_plan` is the two-way case split on `step1_shares_calc`. -/

/-- The plan record `calculate_plan` returns on success, with the local
variables of the source inlined. -/
def plan_of (today : ℤ) (total_capital buy_price : ℚ) (code name : String) : Plan :=
  let board := get_board_type code
  let batch_money := total_capital * STRATEGY.position_ratio * STRATEGY.batch_split
  let step1_shares : ℤ := ⌊batch_money / buy_price / 100⌋ * 100
  let step1_cost := (step1_shares : ℚ) * buy_price
  let add_buy_price := buy_price * (1 - STRATEGY.add_buy_drop)
  let step2_shares : ℤ := ⌊batch_money / add_buy_price / 100⌋ * 100
  let total_shares := step1_shares + step2_shares
  let avg_price := (step1_cost + (step2_shares : ℚ) * add_buy_price) / ((total_shares : ℚ))
  let tp_pct := if board = Board.tech then STRATEGY.tp_tech_board else STRATEGY.tp_main_board
  { code := code
    name := name
    board := board
    buy_price := buy_price
    step1_shares := step1_shares
    step1_money := step1_cost
    step2_price := add_buy_price
    step2_shares := step2_shares
    avg_price := avg_price
    tp1_price := buy_price * (1 + tp_pct)
    tp_pct := tp_pct
    post_add_tp1 := avg_price * (1 + tp_pct)
    stop_price := avg_price * (1 - STRATEGY.stop_loss_from_avg)
    deadline := today + 28
    date := today }

lemma calculate_plan_eq (today : ℤ) (tc bp : ℚ) (code name : String) :
    calculate_plan today tc bp code name =
      if step1_shares_calc tc bp = 0 then (none, some insufficient_lot_msg)
      else (some (plan_of today tc bp code name), none) := rfl

/-! ### Concrete artifacts for end-to-end evaluation

`planA0` is the plan of spec scenario A (capital 1,000,000, entry price
100, main-board code 600519), computed with creation date `0`. -/

/-- The scenario-A plan as an explicit record. -/
def planA0 : Plan :=
  { code := "600519"
    name := ""
    board := Board.main
    buy_price := 100
    step1_shares := 800
    step1_money := 80000
    step2_price := 93
    step2_shares := 800
    avg_price := 193/2
    tp1_price := 105
    tp_pct := 1/20
    post_add_tp1 := 4053/40
    stop_price := 17949/200
    deadline := 28
    date := 0 }

/-- Evaluation of the calculator on the scenario-A inputs, for any creation
date and instrument name. -/
lemma calc_A (today : ℤ) (name : String) :
    calculate_plan today 1000000 100 "600519" name =
      (some { planA0 with name := name, deadline := today + 28, date := today }, none) := by
  have hb : get_board_type "600519" = Board.main := by decide
  unfold calculate_plan planA0
  rw [hb]
  norm_num [STRATEGY]
  have hne : ¬ (Board.main = Board.tech) := by simp
  rw [if_neg hne]
  exact ⟨by norm_num, hne, by norm_num⟩

/-- Evaluation of the calculator on the scenario-A inputs at date `0`. -/
lemma calc_A0 : calculate_plan 0 1000000 100 "600519" "" = (some planA0, none) := by
  have h := calc_A 0 ""
  simpa using h

/-- The scenario-A position as archived by the confirm-execute handler. -/
def positionA : Position := mk_position planA0 "tech" "t"

/-- A ledger state holding the scenario-A position, as produced by opening
`planA0` against starting cash 1,000,000. -/
def stateA : LedgerState :=
  { total_assets := 1000000
    cash := 920000
    active_trades := [positionA]
    history_trades := [] }

/-- The scenario-A position closed with profit 5,000 on day 0. -/
def closedA : ClosedPosition :=
  { toPosition := positionA, profit := 5000, close_date := 0 }

/-- Open scenario A, then settle it with realized profit 5,000. -/
def opsA : List Op := [Op.openPos planA0 "tech" "t", Op.closePos 0 5000]

/-! ### Ledger lemmas -/

lemma sum_map_eraseIdx {α : Type} (f : α → ℚ) :
    ∀ (l : List α) (i : ℕ) (h : i < l.length),
      ((l.eraseIdx i).map f).sum = (l.map f).sum - f (l.get ⟨i, h⟩)
  | a :: l, 0, _ => by simp [List.eraseIdx]
  | a :: l, i + 1, h => by
      have ih := sum_map_eraseIdx f l i (by simpa using h)
      simp only [List.eraseIdx, List.map_cons, List.sum_cons, List.get, ih]
      ring

lemma open_position_wealth {plan : Plan} {lt rd : String} {s : LedgerState}
    (h : (open_position plan lt rd s).2 = none) :
    wealth (open_position plan lt rd s).1 = wealth s := by
  unfold open_position at h ⊢
  by_cases hc : plan.step1_money > s.cash
  · rw [if_pos hc] at h
    simp at h
  · rw [if_neg hc]
    simp [wealth, mk_position]
    ring

lemma close_position_wealth {today : ℤ} {i : ℕ} {profit : ℚ} {s : LedgerState}
    (h : (close_position today i profit s).2 = none) :
    wealth (close_position today i profit s).1 = wealth s + profit := by
  unfold close_position at h ⊢
  by_cases hc : i < s.active_trades.length
  · rw [dif_pos hc]
    simp only [wealth]
    rw [sum_map_eraseIdx (fun t => t.cost) s.active_trades i hc]
    ring
  · rw [dif_neg hc] at h
    simp at h

lemma run_ops_wealth (today : ℤ) (ops : List Op) :
    ∀ s : LedgerState, (run_ops today ops s).2 = none →
      wealth (run_ops today ops s).1 = wealth s + injected ops := by
  induction ops with
  | nil => intro s _; simp [run_ops, injected]
  | cons op ops ih =>
      intro s h
      rcases hex : exec_op today op s with ⟨s2, e⟩
      cases e with
      | none =>
          have hrun : run_ops today (op :: ops) s = run_ops today ops s2 := by
            rw [run_ops, hex]
          rw [hrun] at h ⊢
          rw [ih s2 h]
          have hw : wealth s2 = wealth s + injected [op] := by
            cases op with
            | openPos plan lt rd =>
                have h2 : (open_position plan lt rd s).2 = none := by
                  rw [show open_position plan lt rd s = (s2, none) from hex]
                have h1 : (open_position plan lt rd s).1 = s2 := by
                  rw [show open_position plan lt rd s = (s2, none) from hex]
                rw [← h1, open_position_wealth h2]
                simp [injected]
            | closePos j profit =>
                have h2 : (close_position today j profit s).2 = none := by
                  rw [show close_position today j profit s = (s2, none) from hex]
                have h1 : (close_position today j profit s).1 = s2 := by
                  rw [show close_position today j profit s = (s2, none) from hex]
                rw [← h1, close_position_wealth h2]
                simp [injected]
          rw [hw]
          cases op <;> simp [injected, add_assoc]
      | some e =>
          exfalso
          have : (run_ops today (op :: ops) s).2 = some e := by
            rw [run_ops, hex]
          rw [this] at h
          exact Option.noConfusion h

/-! ### Calculator lemmas -/

lemma batch_money_pos {tc : ℚ} (htc : 0 < tc) :
    0 < tc * STRATEGY.position_ratio * STRATEGY.batch_split := by
  have h1 : STRATEGY.position_ratio = 16/100 := by norm_num [STRATEGY]
  have h2 : STRATEGY.batch_split = 1/2 := by norm_num [STRATEGY]
  rw [h1, h2]
  positivity

lemma step1_nonneg {tc bp : ℚ} (htc : 0 < tc) (hbp : 0 < bp) :
    0 ≤ step1_shares_calc tc bp := by
  have hnn : (0:ℚ) ≤ tc * STRATEGY.position_ratio * STRATEGY.batch_split / bp / 100 :=
    div_nonneg (div_nonneg (batch_money_pos htc).le hbp.le) (by norm_num)
  have hfl := Int.floor_nonneg.2 hnn
  unfold step1_shares_calc
  omega

lemma step1_pos {tc bp : ℚ} (htc : 0 < tc) (hbp : 0 < bp)
    (h0 : step1_shares_calc tc bp ≠ 0) : 0 < step1_shares_calc tc bp := by
  have := step1_nonneg htc hbp
  omega

lemma avg_pos_le {bp ap : ℚ} {s1 s2 : ℤ} (hbp : 0 < bp) (hap : 0 < ap) (hle : ap ≤ bp)
    (h1 : 0 < s1) (h2 : 0 ≤ s2) :
    0 < ((s1 : ℚ) * bp + (s2 : ℚ) * ap) / (((s1 + s2 : ℤ)) : ℚ) ∧
    ((s1 : ℚ) * bp + (s2 : ℚ) * ap) / (((s1 + s2 : ℤ)) : ℚ) ≤ bp := by
  have hs1 : (0:ℚ) < (s1:ℚ) := by exact_mod_cast h1
  have hs2 : (0:ℚ) ≤ (s2:ℚ) := by exact_mod_cast h2
  have hden : (0:ℚ) < (((s1 + s2 : ℤ)) : ℚ) := by push_cast; linarith
  constructor
  · apply div_pos _ hden
    nlinarith
  · rw [div_le_iff₀ hden]
    push_cast
    nlinarith

lemma add_buy_price_bounds {bp : ℚ} (hbp : 0 < bp) :
    0 < bp * (1 - STRATEGY.add_buy_drop) ∧ bp * (1 - STRATEGY.add_buy_drop) ≤ bp := by
  have h1 : STRATEGY.add_buy_drop = 7/100 := by norm_num [STRATEGY]
  rw [h1]
  constructor
  · nlinarith
  · nlinarith

lemma step2_nonneg {tc bp : ℚ} (htc : 0 < tc) (hbp : 0 < bp) :
    0 ≤ ⌊tc * STRATEGY.position_ratio * STRATEGY.batch_split /
          (bp * (1 - STRATEGY.add_buy_drop)) / 100⌋ * 100 := by
  have hap := (add_buy_price_bounds hbp).1
  have hnn : (0:ℚ) ≤ tc * STRATEGY.position_ratio * STRATEGY.batch_split /
      (bp * (1 - STRATEGY.add_buy_drop)) / 100 :=
    div_nonneg (div_nonneg (batch_money_pos htc).le hap.le) (by norm_num)
  have hfl := Int.floor_nonneg.2 hnn
  omega

lemma planA0_tp_pct_pos : (0:ℚ) < planA0.tp_pct := by norm_num [planA0]

lemma stop_loss_from_avg_pos : (0:ℚ) < STRATEGY.stop_loss_from_avg := by norm_num [STRATEGY]

lemma add_buy_drop_pos : (0:ℚ) < STRATEGY.add_buy_drop := by norm_num [STRATEGY]

lemma add_buy_drop_lt_one : STRATEGY.add_buy_drop < 1 := by norm_num [STRATEGY]

/-! ### The claims -/

/-- Claim C1: Ledger cash conservation.  Over any sequence of successful
open/close operations from an initialized ledger, cash plus the committed
cash of the open positions equals the starting cash plus the sum of the
caller-supplied realized profit/loss amounts injected at close time; in
particular every successful open operation leaves that quantity
unchanged. -/
theorem ledger_cash_conservation :
    (∀ (today : ℤ) (startingCash : ℚ) (ops : List Op),
        (run_ops today ops (init_ledger startingCash)).2 = none →
        wealth (run_ops today ops (init_ledger startingCash)).1 = startingCash + injected ops) ∧
    (∀ (plan : Plan) (lt rd : String) (s : LedgerState),
        (open_position plan lt rd s).2 = none →
        wealth (open_position plan lt rd s).1 = wealth s) := by
  constructor
  · intro today c ops h
    rw [run_ops_wealth today ops (init_ledger c) h]
    simp [wealth, init_ledger]
  · intro plan lt rd s h
    exact open_position_wealth h

/-- Witness for C1: opening the scenario-A plan against 1,000,000 and
settling it with profit 5,000 is a successful trace, and the conserved
quantity ends at 1,000,000 + 5,000. -/
theorem ledger_cash_conservation_witness :
    (run_ops 0 opsA (init_ledger 1000000)).2 = none ∧
    wealth (run_ops 0 opsA (init_ledger 1000000)).1 = 1000000 + injected opsA :=
  ⟨by decide, (ledger_cash_conservation.1) 0 1000000 opsA (by decide)⟩

/-- Claim C2 (code bug): every successful plan sets its deadline to the
creation date plus the literal 28 calendar days (line 122), while the
configured holding-period limit `STRATEGY.max_days` is 20; the claimed
`deadlineDate = today + maxHoldingDays` therefore fails on the code. -/
theorem plan_deadline_uses_28_not_max_days :
    (∀ (today : ℤ) (tc bp : ℚ) (code name : String) (p : Plan),
        (calculate_plan today tc bp code name).1 = some p → p.deadline = today + 28) ∧
    STRATEGY.max_days = 20 ∧ ((28:ℤ) ≠ 20) := by
  refine ⟨?_, rfl, by decide⟩
  intro today tc bp code name p h
  rw [calculate_plan_eq] at h
  by_cases h0 : step1_shares_calc tc bp = 0
  · rw [if_pos h0] at h
    simp at h
  · rw [if_neg h0] at h
    have hp2 : some (plan_of today tc bp code name) = some p := h
    obtain rfl := (Option.some.inj hp2).symm
    rfl

/-- Witness for C2: the scenario-A plan, created on day 0, carries deadline
day 28 rather than day 20. -/
theorem plan_deadline_uses_28_not_max_days_witness :
    (calculate_plan 0 1000000 100 "600519" "").1 = some planA0 ∧ planA0.deadline = 0 + 28 :=
  ⟨by rw [calc_A0],
    plan_deadline_uses_28_not_max_days.1 0 1000000 100 "600519" "" planA0 (by rw [calc_A0])⟩

/-- Claim C3: a successful settle of the open position at a valid index
credits cash by exactly `committedCash + realizedProfitLoss`, removes the
position from the open list, archives it at the head of the
most-recent-first closed list with the close date set to the current day,
and recomputes the total-assets baseline as the new cash plus the sum of
committed cash over the remaining open positions (the hypothesis
`cost = step1_money` holds for every position the handler itself creates). -/
theorem close_position_spec (today : ℤ) (i : ℕ) (profit : ℚ) (s : LedgerState)
    (hi : i < s.active_trades.length)
    (hcost : ∀ t ∈ s.active_trades, t.cost = t.step1_money) :
    (close_position today i profit s).2 = none ∧
    (close_position today i profit s).1.cash =
      s.cash + ((s.active_trades.get ⟨i, hi⟩).cost + profit) ∧
    (close_position today i profit s).1.active_trades = s.active_trades.eraseIdx i ∧
    (close_position today i profit s).1.history_trades =
      { toPosition := s.active_trades.get ⟨i, hi⟩, profit := profit, close_date := today }
        :: s.history_trades ∧
    (close_position today i profit s).1.total_assets =
      (close_position today i profit s).1.cash +
        ((s.active_trades.eraseIdx i).map fun t => t.cost).sum := by
  have hmv : calculate_market_value s = (s.active_trades.map fun t => t.cost).sum := by
    unfold calculate_market_value
    congr 1
    exact List.map_congr_left fun t ht => (hcost t ht).symm
  unfold close_position
  rw [dif_pos hi]
  refine ⟨rfl, rfl, rfl, rfl, ?_⟩
  simp only
  rw [hmv, sum_map_eraseIdx (fun t => t.cost) s.active_trades i hi]
  ring

/-- Witness for C3: settling the scenario-A position held in `stateA` with
profit 5,000 on day 0. -/
theorem close_position_spec_witness :
    ((0 : ℕ) < stateA.active_trades.length ∧
      ∀ t ∈ stateA.active_trades, t.cost = t.step1_money) ∧
    ((close_position 0 0 5000 stateA).2 = none ∧
      (close_position 0 0 5000 stateA).1.cash =
        stateA.cash + ((stateA.active_trades.get ⟨0, by decide⟩).cost + 5000) ∧
      (close_position 0 0 5000 stateA).1.active_trades = stateA.active_trades.eraseIdx 0 ∧
      (close_position 0 0 5000 stateA).1.history_trades =
        { toPosition := stateA.active_trades.get ⟨0, by decide⟩, profit := 5000, close_date := 0 }
          :: stateA.history_trades ∧
      (close_position 0 0 5000 stateA).1.total_assets =
        (close_position 0 0 5000 stateA).1.cash +
          ((stateA.active_trades.eraseIdx 0).map fun t => t.cost).sum) :=
  ⟨⟨by decide, by decide⟩, close_position_spec 0 0 5000 stateA (by decide) (by decide)⟩

/-- Claim C4: the confirm-execute handler fails with `InsufficientCash`
exactly when the plan's tranche-1 cost exceeds cash; a rejected call leaves
the ledger state completely unchanged; a successful call debits cash by
exactly the tranche-1 cost, prepends the new position to the open list, and
touches neither the closed list nor the total-assets baseline. -/
theorem open_position_spec (plan : Plan) (lt rd : String) (s : LedgerState) :
    ((open_position plan lt rd s).2 = some LedgerError.insufficientCash ↔
      plan.step1_money > s.cash) ∧
    (plan.step1_money > s.cash → (open_position plan lt rd s).1 = s) ∧
    (plan.step1_money ≤ s.cash →
      (open_position plan lt rd s).2 = none ∧
      (open_position plan lt rd s).1.cash = s.cash - plan.step1_money ∧
      (open_position plan lt rd s).1.active_trades =
        mk_position plan lt rd :: s.active_trades ∧
      (open_position plan lt rd s).1.history_trades = s.history_trades ∧
      (open_position plan lt rd s).1.total_assets = s.total_assets) := by
  unfold open_position
  by_cases hc : plan.step1_money > s.cash
  · rw [if_pos hc]
    refine ⟨by simp [hc], fun _ => rfl, fun hle => absurd hle (by simpa using hc)⟩
  · rw [if_neg hc]
    refine ⟨by simp [hc], fun hgt => absurd hgt hc, fun _ => ⟨rfl, rfl, rfl, rfl, rfl⟩⟩

/-- Witness for C4: opening the 80,000-cost scenario-A plan against a
ledger holding only 1,000 in cash is rejected without any state change. -/
theorem open_position_spec_witness :
    (init_ledger 1000).cash < planA0.step1_money ∧
    (open_position planA0 "tech" "t" (init_ledger 1000)).1 = init_ledger 1000 :=
  ⟨by decide, (open_position_spec planA0 "tech" "t" (init_ledger 1000)).2.1 (by decide)⟩

/-- Claim C5: for positive capital and entry price, the calculator reports
the insufficient-capital error exactly when the lot-floored tranche-1 share
count is zero, that message is its only error, and every returned plan has
a positive tranche-1 share count that is a multiple of 100. -/
theorem calculate_plan_sizing_spec (today : ℤ) (tc bp : ℚ) (code name : String)
    (htc : 0 < tc) (hbp : 0 < bp) :
    ((calculate_plan today tc bp code name).2 = some insufficient_lot_msg ↔
      step1_shares_calc tc bp = 0) ∧
    (∀ e, (calculate_plan today tc bp code name).2 = some e → e = insufficient_lot_msg) ∧
    (∀ p, (calculate_plan today tc bp code name).1 = some p →
      0 < p.step1_shares ∧ (100 : ℤ) ∣ p.step1_shares) := by
  rw [calculate_plan_eq]
  by_cases h0 : step1_shares_calc tc bp = 0
  · rw [if_pos h0]
    exact ⟨by simp [h0], fun e he => by simpa using he.symm, fun p hp => by simp at hp⟩
  · rw [if_neg h0]
    refine ⟨by simp [h0], fun e he => by simp at he, fun p hp => ?_⟩
    have hp2 : some (plan_of today tc bp code name) = some p := hp
    obtain rfl := (Option.some.inj hp2).symm
    have hfield : (plan_of today tc bp code name).step1_shares = step1_shares_calc tc bp := rfl
    rw [hfield]
    exact ⟨step1_pos htc hbp h0, dvd_mul_left 100 _⟩

/-- Witness for C5, at the spec's scenario B (capital 50,000, price 1,000,
which fails the one-lot sizing check). -/
theorem calculate_plan_sizing_spec_witness :
    (0:ℚ) < 50000 ∧ (0:ℚ) < 1000 ∧
    (((calculate_plan 0 50000 1000 "600519" "").2 = some insufficient_lot_msg ↔
        step1_shares_calc 50000 1000 = 0) ∧
      (∀ e, (calculate_plan 0 50000 1000 "600519" "").2 = some e →
        e = insufficient_lot_msg) ∧
      (∀ p, (calculate_plan 0 50000 1000 "600519" "").1 = some p →
        0 < p.step1_shares ∧ (100 : ℤ) ∣ p.step1_shares)) :=
  ⟨by norm_num, by norm_num,
    calculate_plan_sizing_spec 0 50000 1000 "600519" "" (by norm_num) (by norm_num)⟩

/-- Claim C6: scenario A.  Capital 1,000,000 at position ratio 0.16 and
batch split 0.5, entry price 100.00, main-board code 600519, gives
tranche-1 800 shares costing 80,000, tranche-2 trigger price 93.00 with 800
shares, blended average price 96.5, take-profit price 105.00 and stop-loss
price 89.745, for any creation date and instrument name. -/
theorem plan_scenario_A (today : ℤ) (name : String) :
    ∃ p, calculate_plan today 1000000 100 "600519" name = (some p, none) ∧
      p.step1_shares = 800 ∧ p.step1_money = 80000 ∧ p.step2_price = 93 ∧
      p.step2_shares = 800 ∧ p.avg_price = 96.5 ∧ p.tp1_price = 105 ∧
      p.stop_price = 89.745 := by
  refine ⟨_, calc_A today name, ?_⟩
  norm_num [planA0]

/-- Witness for C6, at creation date 0 and the empty instrument name. -/
theorem plan_scenario_A_witness :
    ∃ p, calculate_plan 0 1000000 100 "600519" "" = (some p, none) ∧
      p.step1_shares = 800 ∧ p.step1_money = 80000 ∧ p.step2_price = 93 ∧
      p.step2_shares = 800 ∧ p.avg_price = 96.5 ∧ p.tp1_price = 105 ∧
      p.stop_price = 89.745 :=
  plan_scenario_A 0 ""

/-- Claim C7: every successful plan with positive capital and entry price
satisfies `stopLossPrice < blendedAveragePrice < takeProfitPrice` whenever
the plan's take-profit fraction and the configured stop-loss fraction are
positive. -/
theorem plan_price_ordering (today : ℤ) (tc bp : ℚ) (code name : String) (p : Plan)
    (htc : 0 < tc) (hbp : 0 < bp)
    (htp : 0 < p.tp_pct) (hsl : 0 < STRATEGY.stop_loss_from_avg)
    (h : (calculate_plan today tc bp code name).1 = some p) :
    p.stop_price < p.avg_price ∧ p.avg_price < p.tp1_price := by
  rw [calculate_plan_eq] at h
  by_cases h0 : step1_shares_calc tc bp = 0
  · rw [if_pos h0] at h
    simp at h
  · rw [if_neg h0] at h
    have hp2 : some (plan_of today tc bp code name) = some p := h
    obtain rfl := (Option.some.inj hp2).symm
    have havg : (plan_of today tc bp code name).avg_price =
        ((step1_shares_calc tc bp : ℚ) * bp +
          ((⌊tc * STRATEGY.position_ratio * STRATEGY.batch_split /
              (bp * (1 - STRATEGY.add_buy_drop)) / 100⌋ * 100 : ℤ) : ℚ) *
            (bp * (1 - STRATEGY.add_buy_drop))) /
          (((step1_shares_calc tc bp +
              ⌊tc * STRATEGY.position_ratio * STRATEGY.batch_split /
                (bp * (1 - STRATEGY.add_buy_drop)) / 100⌋ * 100 : ℤ)) : ℚ) := rfl
    have hstop : (plan_of today tc bp code name).stop_price =
        (plan_of today tc bp code name).avg_price * (1 - STRATEGY.stop_loss_from_avg) := rfl
    have htp1 : (plan_of today tc bp code name).tp1_price =
        bp * (1 + (plan_of today tc bp code name).tp_pct) := rfl
    have hbounds :=
      avg_pos_le hbp (add_buy_price_bounds hbp).1 (add_buy_price_bounds hbp).2
        (step1_pos htc hbp h0) (step2_nonneg htc hbp)
    rw [← havg] at hbounds
    obtain ⟨hpos, hle⟩ := hbounds
    constructor
    · rw [hstop]
      nlinarith
    · rw [htp1]
      nlinarith

/-- Witness for C7, at the scenario-A plan. -/
theorem plan_price_ordering_witness :
    (0:ℚ) < planA0.tp_pct ∧ (0:ℚ) < STRATEGY.stop_loss_from_avg ∧
    planA0.stop_price < planA0.avg_price ∧ planA0.avg_price < planA0.tp1_price :=
  ⟨planA0_tp_pct_pos, stop_loss_from_avg_pos,
    plan_price_ordering 0 1000000 100 "600519" "" planA0 (by norm_num) (by norm_num)
      planA0_tp_pct_pos stop_loss_from_avg_pos (by rw [calc_A0])⟩

/-- Claim C8 counterexample: on one closed position with profit 5,000 the
code computes `win_rate = 100` (a percentage), not the claimed fraction
`wins / total = 1`. -/
theorem win_rate_claim_counterexample :
    win_rate [closedA] = 100 ∧
    ((([closedA].filter fun t => 0 < t.profit).length : ℚ) /
      (([closedA] : List ClosedPosition).length : ℚ)) = 1 ∧
    win_rate [closedA] ≠ 1 := by
  have hf : ([closedA].filter fun t => 0 < t.profit) = [closedA] := by
    simp [closedA]
  refine ⟨?_, ?_, ?_⟩ <;> simp [win_rate, hf]

/-- Claim C8 (amended): `win_rate` returns exactly 0 on an empty closed
list, and otherwise the percentage `wins / total * 100` where `wins`
counts the closed positions with strictly positive realized profit. -/
theorem win_rate_amended (history : List ClosedPosition) :
    (history = [] → win_rate history = 0) ∧
    (history ≠ [] →
      win_rate history =
        ((history.filter fun t => 0 < t.profit).length : ℚ) /
          (history.length : ℚ) * 100) := by
  constructor
  · rintro rfl
    rfl
  · intro h
    have hl : 0 < history.length := List.length_pos.2 h
    simp [win_rate, if_pos hl]

/-- Witness for the amended C8, on a one-element history. -/
theorem win_rate_amended_witness :
    ([closedA] : List ClosedPosition) ≠ [] ∧
    win_rate [closedA] =
      ((([closedA].filter fun t => 0 < t.profit).length : ℚ) /
        (([closedA] : List ClosedPosition).length : ℚ)) * 100 :=
  ⟨by simp, (win_rate_amended [closedA]).2 (by simp)⟩

/-- Claim C9: on a fresh session, the lazy initializer fills in the four
default keys, reaches the `api_key` branch, reads the global name
`GOOGLE_API_KEY` — which is defined nowhere at module level — and fails
with a `NameError`; initialization of a fresh session never completes
normally. -/
theorem init_state_fresh_session_name_error :
    init_state fresh_session = Except.error (PyError.nameError "GOOGLE_API_KEY") ∧
    "GOOGLE_API_KEY" ∉ module_globals ∧
    ∀ s, init_state fresh_session ≠ Except.ok s := by
  have h1 : init_state fresh_session =
      Except.error (PyError.nameError "GOOGLE_API_KEY") := by rfl
  refine ⟨h1, by decide, ?_⟩
  intro s hs
  rw [h1] at hs
  exact Except.noConfusion hs

/-- Claim C10: every successful plan with positive capital and entry price,
given that the configured add-buy drop lies strictly between 0 and 1, has a
tranche-2 share count at least the tranche-1 share count and therefore
strictly positive. -/
theorem tranche2_shares_ge (today : ℤ) (tc bp : ℚ) (code name : String) (p : Plan)
    (htc : 0 < tc) (hbp : 0 < bp)
    (hd1 : 0 < STRATEGY.add_buy_drop) (hd2 : STRATEGY.add_buy_drop < 1)
    (h : (calculate_plan today tc bp code name).1 = some p) :
    p.step1_shares ≤ p.step2_shares ∧ 0 < p.step2_shares := by
  rw [calculate_plan_eq] at h
  by_cases h0 : step1_shares_calc tc bp = 0
  · rw [if_pos h0] at h
    simp at h
  · rw [if_neg h0] at h
    have hp2 : some (plan_of today tc bp code name) = some p := h
    obtain rfl := (Option.some.inj hp2).symm
    have h1f : (plan_of today tc bp code name).step1_shares = step1_shares_calc tc bp := rfl
    have h2f : (plan_of today tc bp code name).step2_shares =
        ⌊tc * STRATEGY.position_ratio * STRATEGY.batch_split /
          (bp * (1 - STRATEGY.add_buy_drop)) / 100⌋ * 100 := rfl
    rw [h1f, h2f]
    have hb := batch_money_pos htc
    have hap : 0 < bp * (1 - STRATEGY.add_buy_drop) := by nlinarith
    have hle : bp * (1 - STRATEGY.add_buy_drop) ≤ bp := by nlinarith
    have hdiv : tc * STRATEGY.position_ratio * STRATEGY.batch_split / bp ≤
        tc * STRATEGY.position_ratio * STRATEGY.batch_split /
          (bp * (1 - STRATEGY.add_buy_drop)) := by
      rw [div_le_div_iff₀ hbp hap]
      nlinarith
    have hfl : ⌊tc * STRATEGY.position_ratio * STRATEGY.batch_split / bp / 100⌋ ≤
        ⌊tc * STRATEGY.position_ratio * STRATEGY.batch_split /
          (bp * (1 - STRATEGY.add_buy_drop)) / 100⌋ :=
      Int.floor_mono (by linarith)
    have hpos := step1_pos htc hbp h0
    unfold step1_shares_calc at hpos h0 ⊢
    omega

/-- Witness for C10, at the scenario-A plan (800 tranche-1 shares, 800
tranche-2 shares). -/
theorem tranche2_shares_ge_witness :
    (0:ℚ) < STRATEGY.add_buy_drop ∧ STRATEGY.add_buy_drop < 1 ∧
    planA0.step1_shares ≤ planA0.step2_shares ∧ (0:ℤ) < planA0.step2_shares :=
  ⟨add_buy_drop_pos, add_buy_drop_lt_one,
    tranche2_shares_ge 0 1000000 100 "600519" "" planA0 (by norm_num) (by norm_num)
      add_buy_drop_pos add_buy_drop_lt_one (by rw [calc_A0])⟩

end Tianji
